import Mathlib

/-!
Shallow embedding of `src/ingredient_analytics/ingredient_analytics.py`.

JSON values returned by the OpenFDA API and manipulated by the Python code
are modelled by the mutual inductive `PyVal` (strings, integers, lists and
string-keyed dictionaries).  Python operations that can raise (`d[k]`,
`l[0]`, `int(s)`, iteration) are modelled in the `Except String` monad,
with the error message recording the Python exception class.
-/

mutual

inductive PyVal where
  | str (s : String)
  | int (n : Int)
  | list (xs : PyList)
  | dict (kvs : PyDict)

inductive PyList where
  | nil
  | cons (x : PyVal) (xs : PyList)

inductive PyDict where
  | nil
  | cons (k : String) (v : PyVal) (rest : PyDict)

end

deriving instance DecidableEq for PyVal

deriving instance DecidableEq for PyList

deriving instance DecidableEq for PyDict

def PyList.ofList : List PyVal → PyList
  | [] => .nil
  | x :: xs => .cons x (PyList.ofList xs)

def PyList.toList : PyList → List PyVal
  | .nil => []
  | .cons x xs => x :: PyList.toList xs

def PyDict.ofList : List (String × PyVal) → PyDict
  | [] => .nil
  | (k, v) :: rest => .cons k v (PyDict.ofList rest)

/-- Dictionary lookup, first matching key (Python dict keys are unique). -/
def PyDict.lookup : PyDict → String → Option PyVal
  | .nil, _ => none
  | .cons k v rest, key => if k = key then some v else PyDict.lookup rest key

def PyDict.keys : PyDict → List String
  | .nil => []
  | .cons k _ rest => k :: PyDict.keys rest

/-- Python subscript `v[k]` with a string key: `KeyError` when the key is
absent, `TypeError` when `v` is not a dictionary. -/
def pyGetItem (v : PyVal) (k : String) : Except String PyVal :=
  match v with
  | .dict d =>
    match d.lookup k with
    | some x => .ok x
    | none => .error ("KeyError: " ++ k)
  | _ => .error "TypeError: object is not subscriptable"

/-- Python subscript `v[0]`: first element of a list (or one-character
string of a string); `IndexError` when empty, `TypeError` otherwise. -/
def pyIndexZero (v : PyVal) : Except String PyVal :=
  match v with
  | .list (.cons x _) => .ok x
  | .list .nil => .error "IndexError: list index out of range"
  | .str s =>
    match s.data with
    | c :: _ => .ok (.str (String.mk [c]))
    | [] => .error "IndexError: string index out of range"
  | _ => .error "TypeError: object is not subscriptable"

/-- Python slice `s[:-4]` on a string: drop the last four characters
(empty result when the string has at most four characters). -/
def pySliceStr (s : String) : String :=
  String.mk (s.data.take (s.data.length - 4))

def PyList.dropLast4 (xs : PyList) : PyList :=
  PyList.ofList (xs.toList.take (xs.toList.length - 4))

/-- Python slice `v[:-4]`; works on strings and lists, `TypeError` otherwise. -/
def pySliceDropLast4 (v : PyVal) : Except String PyVal :=
  match v with
  | .str s => .ok (.str (pySliceStr s))
  | .list xs => .ok (.list xs.dropLast4)
  | _ => .error "TypeError: object is not subscriptable"

def digitsVal (l : List Char) : Nat :=
  l.foldl (fun a c => a * 10 + (c.toNat - 48)) 0

/-- Python `int(s)` on a character list: strip surrounding whitespace, then
an optional sign followed by a non-empty digit string. -/
def pyIntChars (l : List Char) : Option Int :=
  match (l.dropWhile Char.isWhitespace).reverse.dropWhile Char.isWhitespace |>.reverse with
  | [] => none
  | '+' :: ds => if !ds.isEmpty && ds.all Char.isDigit then some (digitsVal ds) else none
  | '-' :: ds => if !ds.isEmpty && ds.all Char.isDigit then some (-(digitsVal ds : Int)) else none
  | ds => if ds.all Char.isDigit then some (digitsVal ds) else none

def pyInt? (s : String) : Option Int := pyIntChars s.data

/-- Python `int(v)`: parses a string (`ValueError` on failure), passes an
int through, `TypeError` otherwise. -/
def pyIntCast (v : PyVal) : Except String Int :=
  match v with
  | .str s =>
    match pyInt? s with
    | some n => .ok n
    | none => .error "ValueError: invalid literal for int"
  | .int n => .ok n
  | _ => .error "TypeError: int argument must be a string or a number"

/-- Split a character list at every occurrence of `sep`, keeping empty
fields; the semantics of Python `s.split(sep)` for a one-character
separator. -/
def splitCharsOn (sep : Char) : List Char → List (List Char)
  | [] => [[]]
  | c :: rest =>
    match splitCharsOn sep rest with
    | [] => [[c]]
    | t :: ts => if c = sep then [] :: t :: ts else (c :: t) :: ts

/-- Python `s.split(' ')`. -/
def pySplitSpace (s : String) : List String :=
  (splitCharsOn ' ' s.data).map String.mk

/-- Python iteration over a value: list elements, the characters of a
string, the keys of a dictionary; `TypeError` for an int. -/
def pyIter (v : PyVal) : Except String (List PyVal) :=
  match v with
  | .list xs => .ok xs.toList
  | .str s => .ok (s.data.map (fun c => .str (String.mk [c])))
  | .dict d => .ok (d.keys.map .str)
  | .int _ => .error "TypeError: int object is not iterable"

/-- A row of the table built by `IngredientAnalytics.extract_relevant_data`
(columns `generic_name`, `year`, `num_ingredients`, `manufacturer`). -/
structure RowA where
  generic_name : PyVal
  year : Int
  num_ingredients : Nat
  manufacturer : PyVal
  deriving DecidableEq

/-- A `route` cell: either a value or the float `np.nan` used by
`IngredientAndRouteAnalytics.extract_relevant_data` as missing marker. -/
inductive RouteCell where
  | nan
  | val (v : PyVal)
  deriving DecidableEq

/-- A row of the table built by
`IngredientAndRouteAnalytics.extract_relevant_data` (columns
`generic_name`, `route`, `year`, `num_ingredients`, `manufacturer`). -/
structure RowB where
  generic_name : PyVal
  route : RouteCell
  year : Int
  num_ingredients : Nat
  manufacturer : PyVal
  deriving DecidableEq

/-- Body of the `for i in r['results']` loop of
`IngredientAnalytics.extract_relevant_data`: `effective_time` is parsed
first, then records with an empty `openfda` block are skipped (`none`),
then the remaining fields are read.  `num_ingredients` is
`len(i['spl_product_data_elements'][0].split(' '))`. -/
def extractRecordA (i : PyVal) : Except String (Option RowA) := do
  let etRaw ← pyGetItem i "effective_time"
  let etSliced ← pySliceDropLast4 etRaw
  let effective_time ← pyIntCast etSliced
  let ofda ← pyGetItem i "openfda"
  match ofda with
  | .dict .nil => return none
  | _ => do
    let manufacturer_name ← pyGetItem ofda "manufacturer_name"
    let generic_name ← pyGetItem ofda "generic_name"
    let spl ← pyGetItem i "spl_product_data_elements"
    let spl0 ← pyIndexZero spl
    match spl0 with
    | .str s => return some ⟨generic_name, effective_time, (pySplitSpace s).length, manufacturer_name⟩
    | _ => throw "AttributeError: object has no attribute split"

/-- The `route` cell computed by the `try`/`except KeyError` block of
`IngredientAndRouteAnalytics.extract_relevant_data`: look `route` up in
the `openfda` block, unwrap a one-element list to its element, and turn a
`KeyError` (absent key) into the `np.nan` marker. -/
def routeOf (ofda : PyVal) : RouteCell :=
  match pyGetItem ofda "route" with
  | .error _ => RouteCell.nan
  | .ok rv =>
    match rv with
    | .list (.cons x .nil) => RouteCell.val x
    | _ => RouteCell.val rv

/-- Body of the loop of `IngredientAndRouteAnalytics.extract_relevant_data`;
same as `extractRecordA` plus the `route` column (see `routeOf`). -/
def extractRecordB (i : PyVal) : Except String (Option RowB) := do
  let etRaw ← pyGetItem i "effective_time"
  let etSliced ← pySliceDropLast4 etRaw
  let effective_time ← pyIntCast etSliced
  let ofda ← pyGetItem i "openfda"
  match ofda with
  | .dict .nil => return none
  | _ => do
    let manufacturer_name ← pyGetItem ofda "manufacturer_name"
    let route : RouteCell := routeOf ofda
    let generic_name ← pyGetItem ofda "generic_name"
    let spl ← pyGetItem i "spl_product_data_elements"
    let spl0 ← pyIndexZero spl
    match spl0 with
    | .str s => return some ⟨generic_name, route, effective_time, (pySplitSpace s).length, manufacturer_name⟩
    | _ => throw "AttributeError: object has no attribute split"

/-- Sequential effectful map over a list, stopping at the first error;
models the Python `for` loop appending to an accumulator list. -/
def mapE {α β : Type} (f : α → Except String β) : List α → Except String (List β)
  | [] => .ok []
  | x :: xs => do
    let y ← f x
    let ys ← mapE f xs
    return y :: ys

/-- A result page as returned by `requests.get(...).json()`: a dictionary
whose `results` key holds the list of records. -/
def mkPage (items : List PyVal) : PyVal :=
  .dict (PyDict.ofList [("results", .list (PyList.ofList items))])

/-- `IngredientAnalytics.extract_relevant_data` on one page. -/
def extract_relevant_dataA (r : PyVal) : Except String (List RowA) := do
  let results ← pyGetItem r "results"
  let items ← pyIter results
  let rows ← mapE extractRecordA items
  return rows.reduceOption

/-- `IngredientAndRouteAnalytics.extract_relevant_data` on one page. -/
def extract_relevant_dataB (r : PyVal) : Except String (List RowB) := do
  let results ← pyGetItem r "results"
  let items ← pyIter results
  let rows ← mapE extractRecordB items
  return rows.reduceOption

/-- An aggregate row of `av_number_ingredients_per_year` (index `year`,
columns `drug_names` and `avg_number_of_ingredients`). -/
structure AggRowA where
  year : Int
  drug_names : List PyVal
  avg_number_of_ingredients : Rat
  deriving DecidableEq

/-- An aggregate row of `av_number_ingredients_per_year_per_route` (index
`(year, route)`, columns `drug_name` and `avg_number_of_ingredients`). -/
structure AggRowB where
  year : Int
  route : RouteCell
  drug_name : List PyVal
  avg_number_of_ingredients : Rat
  deriving DecidableEq

/-- The distinct `year` keys of `data.groupby(by='year')`, in the sorted
order in which pandas emits the groups. -/
def yearsSorted (rows : List RowA) : List Int :=
  ((rows.map RowA.year).dedup).insertionSort (· ≤ ·)

/-- The rows of the group with key `y`. -/
def groupA (rows : List RowA) (y : Int) : List RowA :=
  rows.filter (fun r => r.year = y)

/-- Arithmetic mean of a list of counts, as computed by pandas
`groupby(...).mean()` on the `num_ingredients` column. -/
def meanOf (ns : List Nat) : Rat :=
  ((ns.map (fun n => (Nat.cast n : Rat))).sum) / ((Nat.cast ns.length : Rat))

/-- `itertools.chain(*n)`: iterate each cell value and concatenate; fails
with `TypeError` when some cell is not iterable. -/
def chainAll (vs : List PyVal) : Except String (List PyVal) := do
  let ls ← mapE pyIter vs
  return ls.flatten

/-- The output row of `av_number_ingredients_per_year` for one group key:
the drug-name cell chains the `generic_name` cells of the group and the
average is the group mean of `num_ingredients` (pandas drops the
non-numeric columns from `groupby('year').mean()`). -/
def aggRowOfYear (rows : List RowA) (y : Int) : Except String AggRowA := do
  let g := groupA rows y
  let names ← chainAll (g.map RowA.generic_name)
  return ⟨y, names, meanOf (g.map RowA.num_ingredients)⟩

/-- `IngredientAnalytics.av_number_ingredients_per_year`, as a function of
the fetched table of extracted rows. -/
def av_number_ingredients_per_year (rows : List RowA) : Except String (List AggRowA) :=
  mapE (aggRowOfYear rows) (yearsSorted rows)

/-- The distinct `(year, route)` keys of `groupby(by=['year', 'route'])`:
pandas drops groups whose key contains `NaN`, so rows with the `np.nan`
route marker contribute no key.  Key order is modelled as first
occurrence; pandas emits groups in sorted key order, but no property below
depends on the order of the aggregate rows. -/
def keysB (rows : List RowB) : List (Int × RouteCell) :=
  ((rows.filter (fun r => r.route ≠ RouteCell.nan)).map (fun r => (r.year, r.route))).dedup

/-- The rows of the group with key `k`. -/
def groupB (rows : List RowB) (k : Int × RouteCell) : List RowB :=
  rows.filter (fun r => r.year = k.1 ∧ r.route = k.2)

/-- The output row of `av_number_ingredients_per_year_per_route` for one
group key. -/
def aggRowOfKey (rows : List RowB) (k : Int × RouteCell) : Except String AggRowB := do
  let g := groupB rows k
  let names ← chainAll (g.map RowB.generic_name)
  return ⟨k.1, k.2, names, meanOf (g.map RowB.num_ingredients)⟩

/-- `IngredientAndRouteAnalytics.av_number_ingredients_per_year_per_route`,
as a function of the fetched table of extracted rows. -/
def av_number_ingredients_per_year_per_route (rows : List RowB) : Except String (List AggRowB) :=
  mapE (aggRowOfKey rows) (keysB rows)

/-- `_QueryOpenFDA._max_limit`: the API caps pages at 99 records. -/
def _max_limit : Nat := 99

/-- Return value of `_QueryOpenFDA._compute_chuncksizes`. -/
structure ChunkSizes where
  num_full_requests : Nat
  size_of_last_request : Nat
  deriving DecidableEq

/-- `_QueryOpenFDA._compute_chuncksizes` as a function of the total result
count `N` reported by the API. -/
def _compute_chuncksizes (N : Nat) : ChunkSizes :=
  ⟨N / _max_limit, N % _max_limit⟩

/-- The `assert` in `_compute_chuncksizes`. -/
def chunckAssertion (N : Nat) : Bool :=
  decide ((_compute_chuncksizes N).num_full_requests * _max_limit +
    (_compute_chuncksizes N).size_of_last_request = N)

/-- The `(skip, limit)` pairs of the page requests issued by
`_QueryOpenFDA._fetch_data`: one request with `limit=99` per full page at
`skip = req * 99`, then, when the remainder is non-zero, one trailing
request at `skip = N - size_of_last_request` with the remainder as limit. -/
def pageRequests (N : Nat) : List (Nat × Nat) :=
  ((List.range (_compute_chuncksizes N).num_full_requests).map
    (fun req => (req * _max_limit, _max_limit))) ++
  (if (_compute_chuncksizes N).size_of_last_request ≠ 0 then
    [(N - (_compute_chuncksizes N).size_of_last_request,
      (_compute_chuncksizes N).size_of_last_request)]
  else [])

/-- `pandas.concat`: raises `ValueError` on an empty list of tables. -/
def pd_concat {α : Type} (l : List (List α)) : Except String (List α) :=
  if l.isEmpty then .error "ValueError: No objects to concatenate" else .ok l.flatten

/-- `_QueryOpenFDA._fetch_data`, abstracted over the per-request extracted
table `page skip limit` (the composition of `requests.get` and
`extract_relevant_data` for one page): the per-page tables are collected
in request order and concatenated. -/
def _fetch_data {α : Type} (N : Nat) (page : Nat → Nat → List α) : Except String (List α) :=
  pd_concat ((pageRequests N).map (fun p => page p.1 p.2))

/-- The chart styles accepted by `plot` (`cls.__name__` is checked against
the list `['lineplot', 'barplot']`). -/
inductive SeabornStyle where
  | lineplot
  | barplot
  | otherStyle (name : String)
  deriving DecidableEq

def styleName : SeabornStyle → String
  | .lineplot => "lineplot"
  | .barplot => "barplot"
  | .otherStyle n => n

/-- `os.path.join(WORKING_DIRECTORY, 'graphs_directory')`; the absolute
runtime prefix is elided. -/
def GRAPHS_DIRECTORY : String := "graphs_directory"

/-- The matplotlib/seaborn calls performed by `plot`, in order. -/
inductive PlotEvent where
  | figure
  | chart (style : String) (x : String) (y : String) (hue : Option String)
  | despine
  | title (t : String)
  | legend
  | xlabel (s : String)
  | ylabel (s : String)
  | savefigFile (fname : String)
  | showFig
  deriving DecidableEq

/-- `IngredientAnalytics.plot` as the sequence of chart calls it performs:
after the style check it fetches data and draws the requested chart on a
fresh figure, then fetches again and draws a `seaborn.lineplot` on a
second fresh figure, which receives the despine/title/labels and is the
figure saved or shown. -/
def plotA (cls : SeabornStyle) (savefig : Bool) : Except String (List PlotEvent) :=
  if styleName cls ∉ (["lineplot", "barplot"] : List String) then
    .error "TypeError: Currently only support seaborn.lineplot or seaborn.barplot"
  else
    .ok ([.figure, .chart (styleName cls) "year" "num_ingredients" none,
          .figure, .chart "lineplot" "year" "num_ingredients" none,
          .despine,
          .title "Number of ingredients in AstraZeneca products per year",
          .xlabel "Number of Ingredients", .ylabel "Year"] ++
      (if savefig then
        [.savefigFile (GRAPHS_DIRECTORY ++ "/number_of_ingredients_per_year_" ++
          styleName cls ++ ".png")]
      else [.showFig]))

/-- `IngredientAndRouteAnalytics.plot` as the sequence of chart calls it
performs: one figure, the requested chart faceted by `route` via the
`hue` argument, then despine, title, legend, labels, and save or show. -/
def plotB (cls : SeabornStyle) (savefig : Bool) : Except String (List PlotEvent) :=
  if styleName cls ∉ (["lineplot", "barplot"] : List String) then
    .error "TypeError: Currently only support seaborn.lineplot or seaborn.barplot"
  else
    .ok ([.figure, .chart (styleName cls) "year" "num_ingredients" (some "route"),
          .despine,
          .title "Number of ingredients in AstraZeneca \nproducts per year per administration route",
          .legend,
          .xlabel "Number of Ingredients", .ylabel "Year"] ++
      (if savefig then
        [.savefigFile (GRAPHS_DIRECTORY ++ "/number_of_ingredients_per_year_per_route_" ++
          styleName cls ++ ".png")]
      else [.showFig]))

/-- Split a character list at every character satisfying `p`, keeping
empty fields. -/
def splitCharsWhen (p : Char → Bool) : List Char → List (List Char)
  | [] => [[]]
  | c :: rest =>
    match splitCharsWhen p rest with
    | [] => [[c]]
    | t :: ts => if p c then [] :: t :: ts else (c :: t) :: ts

/-- Tokenisation in the spec sense: the maximal whitespace-free tokens of
a string (Python `s.split()` with no argument: split on any whitespace,
empty tokens dropped). -/
def whitespaceTokens (s : String) : List String :=
  ((splitCharsWhen Char.isWhitespace s.data).filter (fun t => t ≠ [])).map String.mk

deriving instance DecidableEq for Except

/-- A concrete page function used to instantiate `_fetch_data` theorems. -/
def pageW : Nat → Nat → List Nat := fun s l => [s, l]

/-- A well-formed record with a route, used in witnesses. -/
def recOral : PyVal :=
  .dict (PyDict.ofList [
    ("effective_time", .str "20160102"),
    ("openfda", .dict (PyDict.ofList [
      ("manufacturer_name", .list (PyList.ofList [.str "AstraZeneca"])),
      ("generic_name", .list (PyList.ofList [.str "GEFITINIB"])),
      ("route", .list (PyList.ofList [.str "ORAL"]))])),
    ("spl_product_data_elements", .list (PyList.ofList [.str "GEFITINIB TABLET"]))])

/-- A record whose `openfda` block is the empty dictionary. -/
def recEmptyOpenfda : PyVal :=
  .dict (PyDict.ofList [
    ("effective_time", .str "20170102"),
    ("openfda", .dict PyDict.nil),
    ("spl_product_data_elements", .list (PyList.ofList [.str "OMEPRAZOLE"]))])

/-- A usable record whose non-empty `openfda` block has no `route` key. -/
def recNoRoute : PyVal :=
  .dict (PyDict.ofList [
    ("effective_time", .str "20170102"),
    ("openfda", .dict (PyDict.ofList [
      ("manufacturer_name", .list (PyList.ofList [.str "AstraZeneca"])),
      ("generic_name", .list (PyList.ofList [.str "OMEPRAZOLE"]))])),
    ("spl_product_data_elements", .list (PyList.ofList [.str "OMEPRAZOLE MAGNESIUM"]))])

/-- A usable record whose ingredient text contains two consecutive spaces. -/
def recDoubleSpace : PyVal :=
  .dict (PyDict.ofList [
    ("effective_time", .str "20170102"),
    ("openfda", .dict (PyDict.ofList [
      ("manufacturer_name", .list (PyList.ofList [.str "AstraZeneca"])),
      ("generic_name", .list (PyList.ofList [.str "X"]))])),
    ("spl_product_data_elements", .list (PyList.ofList [.str "a  b"]))])

/-- The full event list of `IngredientAnalytics.plot` for `barplot` with
`savefig=True`. -/
def plotABarEvents : List PlotEvent :=
  [.figure, .chart "barplot" "year" "num_ingredients" none,
   .figure, .chart "lineplot" "year" "num_ingredients" none,
   .despine, .title "Number of ingredients in AstraZeneca products per year",
   .xlabel "Number of Ingredients", .ylabel "Year",
   .savefigFile "graphs_directory/number_of_ingredients_per_year_barplot.png"]

theorem toList_ofList : ∀ l : List PyVal, (PyList.ofList l).toList = l := by
  intro l
  induction l with
  | nil => rfl
  | cons x xs ih => simp [PyList.ofList, PyList.toList, ih]

theorem mapE_nil {α β : Type} (f : α → Except String β) : mapE f [] = .ok [] := rfl

theorem mapE_cons_ok {α β : Type} (f : α → Except String β) {x : α} {y : β} {xs : List α}
    (hx : f x = .ok y) :
    mapE f (x :: xs) =
      match mapE f xs with
      | .ok ys => .ok (y :: ys)
      | .error e => .error e := by
  simp only [mapE, hx, Bind.bind, Except.bind]
  cases mapE f xs <;> rfl

theorem mapE_cons_error {α β : Type} (f : α → Except String β) {x : α} {e : String}
    {xs : List α} (hx : f x = .error e) : mapE f (x :: xs) = .error e := by
  simp only [mapE, hx, Bind.bind, Except.bind]

theorem mapE_ok_forall₂ {α β : Type} (f : α → Except String β) :
    ∀ {l : List α} {out : List β}, mapE f l = .ok out →
      List.Forall₂ (fun a b => f a = .ok b) l out := by
  intro l
  induction l with
  | nil =>
    intro out h
    simp only [mapE] at h
    cases h
    exact List.Forall₂.nil
  | cons x xs ih =>
    intro out h
    cases hx : f x with
    | error e => rw [mapE_cons_error f hx] at h; cases h
    | ok y =>
      rw [mapE_cons_ok f hx] at h
      cases hxs : mapE f xs with
      | error e => rw [hxs] at h; cases h
      | ok ys =>
        rw [hxs] at h
        cases h
        exact List.Forall₂.cons hx (ih hxs)

theorem mapE_append {α β : Type} (f : α → Except String β) (l₁ l₂ : List α) :
    mapE f (l₁ ++ l₂) =
      match mapE f l₁ with
      | .ok a =>
        match mapE f l₂ with
        | .ok b => .ok (a ++ b)
        | .error e => .error e
      | .error e => .error e := by
  induction l₁ with
  | nil =>
    simp only [List.nil_append, mapE]
    cases mapE f l₂ <;> rfl
  | cons x xs ih =>
    cases hx : f x with
    | error e =>
      rw [List.cons_append, mapE_cons_error f hx, mapE_cons_error f hx]
    | ok y =>
      rw [List.cons_append, mapE_cons_ok f hx, mapE_cons_ok f hx, ih]
      cases mapE f xs with
      | error e => rfl
      | ok a => cases mapE f l₂ <;> rfl

theorem forall₂_mem_right {α β : Type} {R : α → β → Prop} :
    ∀ {l : List α} {out : List β}, List.Forall₂ R l out → ∀ b ∈ out, ∃ a ∈ l, R a b := by
  intro l out h
  induction h with
  | nil => intro b hb; cases hb
  | cons hr _ ih =>
    intro b hb
    rcases List.mem_cons.mp hb with hb | hb
    · exact ⟨_, List.mem_cons_self .., hb ▸ hr⟩
    · rcases ih b hb with ⟨a, ha, hR⟩
      exact ⟨a, List.mem_cons_of_mem _ ha, hR⟩

theorem forall₂_mem_left {α β : Type} {R : α → β → Prop} :
    ∀ {l : List α} {out : List β}, List.Forall₂ R l out → ∀ a ∈ l, ∃ b ∈ out, R a b := by
  intro l out h
  induction h with
  | nil => intro a ha; cases ha
  | cons hr _ ih =>
    intro a ha
    rcases List.mem_cons.mp ha with ha | ha
    · exact ⟨_, List.mem_cons_self .., ha ▸ hr⟩
    · rcases ih a ha with ⟨b, hb, hR⟩
      exact ⟨b, List.mem_cons_of_mem _ hb, hR⟩

theorem forall₂_map_eq {α β : Type} {R : α → β → Prop} {f : β → α} :
    ∀ {l : List α} {out : List β}, List.Forall₂ R l out →
      (∀ a b, R a b → f b = a) → out.map f = l := by
  intro l out h hf
  induction h with
  | nil => rfl
  | cons hr _ ih => simp [List.map_cons, ih, hf _ _ hr]

/-- C5: for every non-negative total result count `N`, the full-page count
`N / 99` and the remainder `N % 99` recombine to `N`, so the `assert` in
`_compute_chuncksizes` never fails. -/
theorem compute_chuncksizes_assertion_holds (N : Nat) :
    (_compute_chuncksizes N).num_full_requests * _max_limit +
      (_compute_chuncksizes N).size_of_last_request = N ∧
    chunckAssertion N = true := by
  have h : N / 99 * 99 + N % 99 = N := by omega
  constructor
  · simpa [_compute_chuncksizes, _max_limit] using h
  · simpa [chunckAssertion, _compute_chuncksizes, _max_limit, decide_eq_true_eq] using h

/-- C9: when the API reports a total of zero results, `_fetch_data` issues
no page requests and `pd.concat` of the empty list of tables raises
`ValueError` instead of returning an empty table. -/
theorem fetch_data_zero_total {α : Type} (page : Nat → Nat → List α) :
    pageRequests 0 = [] ∧
    _fetch_data 0 page = .error "ValueError: No objects to concatenate" := by
  constructor
  · rfl
  · rfl

/-- C2: for a total result count `N`, `_fetch_data` issues exactly
`N / 99` full-page requests with limit 99 at skips `0, 99, 198, ...`,
plus one trailing request with skip `N - N % 99` and limit `N % 99`
exactly when `N % 99 ≠ 0`, and returns the concatenation of the per-page
extracted tables in request order. -/
theorem fetch_data_pagination {α : Type} (page : Nat → Nat → List α) (N : Nat)
    (hN : 0 < N) :
    (pageRequests N).length = N / 99 + (if N % 99 = 0 then 0 else 1) ∧
    (∀ i, i < N / 99 → (pageRequests N)[i]? = some (99 * i, 99)) ∧
    (N % 99 ≠ 0 → (pageRequests N)[N / 99]? = some (N - N % 99, N % 99)) ∧
    (N % 99 = 0 → (pageRequests N).length = N / 99) ∧
    _fetch_data N page = .ok (((pageRequests N).map (fun p => page p.1 p.2)).flatten) := by
  have hlen : (pageRequests N).length = N / 99 + (if N % 99 = 0 then 0 else 1) := by
    by_cases h : N % 99 = 0 <;>
      simp [pageRequests, _compute_chuncksizes, _max_limit, h]
  refine ⟨hlen, ?_, ?_, ?_, ?_⟩
  · intro i hi
    simp only [pageRequests, _compute_chuncksizes, _max_limit]
    rw [List.getElem?_append]
    simp [List.getElem?_range, hi, Nat.mul_comm]
  · intro h
    simp only [pageRequests, _compute_chuncksizes, _max_limit]
    rw [List.getElem?_append]
    simp [h]
  · intro h
    rw [hlen]
    simp [h]
  · have hne : pageRequests N ≠ [] := by
      intro hcontra
      have h0 : N / 99 + (if N % 99 = 0 then 0 else 1) = 0 := by
        rw [← hlen, hcontra]
        rfl
      by_cases hm : N % 99 = 0
      · rw [if_pos hm] at h0
        omega
      · rw [if_neg hm] at h0
        omega
    simp only [_fetch_data, pd_concat]
    rw [if_neg]
    simp only [List.isEmpty_eq_true, List.map_eq_nil_iff]
    exact hne

theorem aggRowOfYear_ok {rows : List RowA} {y : Int} {a : AggRowA}
    (h : aggRowOfYear rows y = .ok a) :
    a.year = y ∧
    chainAll ((groupA rows y).map RowA.generic_name) = .ok a.drug_names ∧
    a.avg_number_of_ingredients = meanOf ((groupA rows y).map RowA.num_ingredients) := by
  simp only [aggRowOfYear, Bind.bind, Except.bind] at h
  cases hc : chainAll ((groupA rows y).map RowA.generic_name) with
  | error e => rw [hc] at h; cases h
  | ok names =>
    rw [hc] at h
    simp only [Pure.pure, Except.pure] at h
    cases h
    exact ⟨rfl, rfl, rfl⟩

theorem aggRowOfKey_ok {rows : List RowB} {k : Int × RouteCell} {b : AggRowB}
    (h : aggRowOfKey rows k = .ok b) :
    b.year = k.1 ∧ b.route = k.2 ∧
    chainAll ((groupB rows k).map RowB.generic_name) = .ok b.drug_name ∧
    b.avg_number_of_ingredients = meanOf ((groupB rows k).map RowB.num_ingredients) := by
  simp only [aggRowOfKey, Bind.bind, Except.bind] at h
  cases hc : chainAll ((groupB rows k).map RowB.generic_name) with
  | error e => rw [hc] at h; cases h
  | ok names =>
    rw [hc] at h
    simp only [Pure.pure, Except.pure] at h
    cases h
    exact ⟨rfl, rfl, rfl, rfl⟩

theorem forall₂_map_left {α β γ : Type} {R : γ → β → Prop} {f : α → γ} :
    ∀ {l : List α} {out : List β}, List.Forall₂ (fun a b => R (f a) b) l out →
      List.Forall₂ R (l.map f) out := by
  intro l out h
  induction h with
  | nil => exact .nil
  | cons hr _ ih => exact .cons hr ih

theorem mapE_pyIter_lists :
    ∀ {cells : List PyVal} {perRow : List (List PyVal)},
      List.Forall₂ (fun c ns => c = PyVal.list (PyList.ofList ns)) cells perRow →
      mapE pyIter cells = .ok perRow := by
  intro cells perRow h
  induction h with
  | nil => rfl
  | @cons c ns cs nss hr ht ih =>
    have hx : pyIter c = .ok ns := by rw [hr]; simp [pyIter, toList_ofList]
    rw [mapE_cons_ok pyIter hx, ih]

theorem chainAll_lists {cells : List PyVal} {perRow : List (List PyVal)}
    (h : List.Forall₂ (fun c ns => c = PyVal.list (PyList.ofList ns)) cells perRow) :
    chainAll cells = .ok perRow.flatten := by
  simp only [chainAll, Bind.bind, Except.bind, mapE_pyIter_lists h, Pure.pure, Except.pure]

theorem yearsSorted_nodup (rows : List RowA) : (yearsSorted rows).Nodup :=
  ((List.perm_insertionSort _ _).nodup_iff).mpr (List.nodup_dedup _)

theorem mem_yearsSorted {rows : List RowA} {y : Int} :
    y ∈ yearsSorted rows ↔ y ∈ rows.map RowA.year := by
  unfold yearsSorted
  rw [List.mem_insertionSort, List.mem_dedup]

theorem meanOf_map {α : Type} (f : α → Nat) (g : List α) :
    meanOf (g.map f) = ((g.map (fun r => (f r : Rat))).sum) / ((g.length : Nat) : Rat) := by
  simp only [meanOf, List.map_map, List.length_map]
  rfl

/-- C1: for every fetched table of extracted rows,
`av_number_ingredients_per_year` (and the year-and-route variant) returns
exactly one aggregate row per distinct group key; its average equals the
arithmetic mean of `num_ingredients` over the rows of the group and its
drug-names column is the concatenation of the per-row generic-name lists
of the group.  For the variant the group keys are the distinct
`(year, route)` pairs with a present (non-`NaN`) route, since pandas drops
`NaN` keys from `groupby`. -/
theorem av_number_ingredients_grouping
    (rowsA : List RowA) (outA : List AggRowA)
    (hA : av_number_ingredients_per_year rowsA = .ok outA)
    (rowsB : List RowB) (outB : List AggRowB)
    (hB : av_number_ingredients_per_year_per_route rowsB = .ok outB) :
    ((∀ a ∈ outA, a.year ∈ rowsA.map RowA.year) ∧
     (∀ y ∈ rowsA.map RowA.year, ∃! a, a ∈ outA ∧ a.year = y) ∧
     (∀ a ∈ outA,
        a.avg_number_of_ingredients =
          (((groupA rowsA a.year).map (fun r => (r.num_ingredients : Rat))).sum) /
            (((groupA rowsA a.year).length : Nat) : Rat) ∧
        ∀ perRow : List (List PyVal),
          List.Forall₂ (fun r ns => r.generic_name = PyVal.list (PyList.ofList ns))
            (groupA rowsA a.year) perRow →
          a.drug_names = perRow.flatten)) ∧
    ((∀ b ∈ outB,
        (b.year, b.route) ∈
          (rowsB.filter (fun r => r.route ≠ RouteCell.nan)).map (fun r => (r.year, r.route))) ∧
     (∀ k ∈ (rowsB.filter (fun r => r.route ≠ RouteCell.nan)).map (fun r => (r.year, r.route)),
        ∃! b, b ∈ outB ∧ (b.year, b.route) = k) ∧
     (∀ b ∈ outB,
        b.avg_number_of_ingredients =
          (((groupB rowsB (b.year, b.route)).map (fun r => (r.num_ingredients : Rat))).sum) /
            (((groupB rowsB (b.year, b.route)).length : Nat) : Rat) ∧
        ∀ perRow : List (List PyVal),
          List.Forall₂ (fun r ns => r.generic_name = PyVal.list (PyList.ofList ns))
            (groupB rowsB (b.year, b.route)) perRow →
          b.drug_name = perRow.flatten)) := by
  have FA := mapE_ok_forall₂ _ hA
  have FB := mapE_ok_forall₂ _ hB
  have hyearA : ∀ (y : Int) (a : AggRowA), aggRowOfYear rowsA y = .ok a → AggRowA.year a = y :=
    fun y a h => (aggRowOfYear_ok h).1
  have hkeyB : ∀ (k : Int × RouteCell) (b : AggRowB), aggRowOfKey rowsB k = .ok b →
      (fun b => (AggRowB.year b, AggRowB.route b)) b = k := by
    intro k b h
    obtain ⟨h1, h2, -, -⟩ := aggRowOfKey_ok h
    simp [h1, h2]
  have hmapA : outA.map AggRowA.year = yearsSorted rowsA := forall₂_map_eq FA hyearA
  have hmapB : outB.map (fun b => (AggRowB.year b, AggRowB.route b)) = keysB rowsB :=
    forall₂_map_eq FB hkeyB
  refine ⟨⟨?_, ?_, ?_⟩, ⟨?_, ?_, ?_⟩⟩
  · intro a ha
    have hm : a.year ∈ outA.map AggRowA.year := List.mem_map_of_mem _ ha
    rw [hmapA] at hm
    exact mem_yearsSorted.mp hm
  · intro y hy
    have hy' : y ∈ yearsSorted rowsA := mem_yearsSorted.mpr hy
    obtain ⟨a, ha, hR⟩ := forall₂_mem_left FA y hy'
    refine ⟨a, ⟨ha, hyearA _ _ hR⟩, ?_⟩
    rintro a' ⟨ha', hy'eq⟩
    have hnd : (outA.map AggRowA.year).Nodup := by rw [hmapA]; exact yearsSorted_nodup rowsA
    exact List.inj_on_of_nodup_map hnd ha' ha (by rw [hy'eq, hyearA _ _ hR])
  · intro a ha
    obtain ⟨y, hyk, hR⟩ := forall₂_mem_right FA a ha
    obtain ⟨hy, hchain, havg⟩ := aggRowOfYear_ok hR
    subst hy
    constructor
    · rw [havg, meanOf_map]
    · intro perRow hper
      have hflat := chainAll_lists (forall₂_map_left hper)
      rw [hchain] at hflat
      injection hflat
  · intro b hb
    have hm : (b.year, b.route) ∈ outB.map (fun b => (AggRowB.year b, AggRowB.route b)) :=
      List.mem_map_of_mem _ hb
    rw [hmapB] at hm
    exact List.mem_dedup.mp hm
  · intro k hk
    have hk' : k ∈ keysB rowsB := List.mem_dedup.mpr hk
    obtain ⟨b, hb, hR⟩ := forall₂_mem_left FB k hk'
    refine ⟨b, ⟨hb, hkeyB _ _ hR⟩, ?_⟩
    rintro b' ⟨hb', hk'eq⟩
    have hnd : (outB.map (fun b => (AggRowB.year b, AggRowB.route b))).Nodup := by
      rw [hmapB]; exact List.nodup_dedup _
    refine List.inj_on_of_nodup_map hnd hb' hb ?_
    show (b'.year, b'.route) = (b.year, b.route)
    rw [hk'eq]
    exact (hkeyB _ _ hR).symm
  · intro b hb
    obtain ⟨k, hkk, hR⟩ := forall₂_mem_right FB b hb
    obtain ⟨hy, hr, hchain, havg⟩ := aggRowOfKey_ok hR
    obtain ⟨ky, kr⟩ := k
    simp only at hy hr
    subst hy
    subst hr
    constructor
    · rw [havg, meanOf_map]
    · intro perRow hper
      have hflat := chainAll_lists (forall₂_map_left hper)
      rw [hchain] at hflat
      injection hflat

/-- Witness for C1: a concrete three-row table for each variant. -/
theorem av_number_ingredients_grouping_witness :
    av_number_ingredients_per_year
        [⟨.list (PyList.ofList [.str "A", .str "B"]), 2017, 3, .str "m"⟩,
         ⟨.list (PyList.ofList [.str "C"]), 2017, 4, .str "m"⟩,
         ⟨.list (PyList.ofList [.str "D"]), 2016, 2, .str "m"⟩] =
      .ok [⟨2016, [.str "D"], 2⟩, ⟨2017, [.str "A", .str "B", .str "C"], (7 : Rat)/2⟩] ∧
    av_number_ingredients_per_year_per_route
        [⟨.list (PyList.ofList [.str "A"]), RouteCell.val (.str "ORAL"), 2017, 3, .str "m"⟩,
         ⟨.list (PyList.ofList [.str "B"]), RouteCell.nan, 2017, 5, .str "m"⟩,
         ⟨.list (PyList.ofList [.str "C"]), RouteCell.val (.str "ORAL"), 2017, 4, .str "m"⟩] =
      .ok [⟨2017, RouteCell.val (.str "ORAL"), [.str "A", .str "C"], (7 : Rat)/2⟩] ∧
    (∀ a ∈ [AggRowA.mk 2016 [.str "D"] 2,
            AggRowA.mk 2017 [.str "A", .str "B", .str "C"] ((7 : Rat)/2)],
      a.year ∈ ([⟨.list (PyList.ofList [.str "A", .str "B"]), 2017, 3, .str "m"⟩,
         ⟨.list (PyList.ofList [.str "C"]), 2017, 4, .str "m"⟩,
         ⟨.list (PyList.ofList [.str "D"]), 2016, 2, .str "m"⟩] : List RowA).map RowA.year) := by
  have e1 : av_number_ingredients_per_year
      [⟨.list (PyList.ofList [.str "A", .str "B"]), 2017, 3, .str "m"⟩,
       ⟨.list (PyList.ofList [.str "C"]), 2017, 4, .str "m"⟩,
       ⟨.list (PyList.ofList [.str "D"]), 2016, 2, .str "m"⟩] =
      .ok [⟨2016, [.str "D"], 2⟩, ⟨2017, [.str "A", .str "B", .str "C"], (7 : Rat)/2⟩] := by
    simp [av_number_ingredients_per_year, yearsSorted, mapE, aggRowOfYear, chainAll, groupA,
      meanOf, pyIter, PyList.toList, List.dedup, List.insertionSort, Bind.bind, Except.bind,
      Pure.pure, Except.pure, List.singleton]
    norm_num
  have e2 : av_number_ingredients_per_year_per_route
      [⟨.list (PyList.ofList [.str "A"]), RouteCell.val (.str "ORAL"), 2017, 3, .str "m"⟩,
       ⟨.list (PyList.ofList [.str "B"]), RouteCell.nan, 2017, 5, .str "m"⟩,
       ⟨.list (PyList.ofList [.str "C"]), RouteCell.val (.str "ORAL"), 2017, 4, .str "m"⟩] =
      .ok [⟨2017, RouteCell.val (.str "ORAL"), [.str "A", .str "C"], (7 : Rat)/2⟩] := by
    simp [av_number_ingredients_per_year_per_route, keysB, mapE, aggRowOfKey, chainAll, groupB,
      meanOf, pyIter, PyList.toList, List.dedup, Bind.bind, Except.bind,
      Pure.pure, Except.pure, List.singleton]
    norm_num
  refine ⟨e1, e2, ?_⟩
  exact (av_number_ingredients_grouping _ _ e1 _ _ e2).1.1

/-- Witness for C2 at the concrete total `N = 250` (2 full pages and a
trailing request of 52). -/
theorem fetch_data_pagination_witness :
    (0 < 250) ∧
    ((pageRequests 250).length = 250 / 99 + (if 250 % 99 = 0 then 0 else 1) ∧
     (∀ i, i < 250 / 99 → (pageRequests 250)[i]? = some (99 * i, 99)) ∧
     (250 % 99 ≠ 0 → (pageRequests 250)[250 / 99]? = some (250 - 250 % 99, 250 % 99)) ∧
     (250 % 99 = 0 → (pageRequests 250).length = 250 / 99) ∧
     _fetch_data 250 pageW = .ok (((pageRequests 250).map (fun p => pageW p.1 p.2)).flatten)) :=
  ⟨by decide, fetch_data_pagination pageW 250 (by decide)⟩

theorem extractRecordA_skip {r et etS : PyVal} {yr : Int}
    (h1 : pyGetItem r "effective_time" = .ok et)
    (h2 : pySliceDropLast4 et = .ok etS)
    (h3 : pyIntCast etS = .ok yr)
    (h4 : pyGetItem r "openfda" = .ok (.dict .nil)) :
    extractRecordA r = .ok none := by
  simp only [extractRecordA, h1, h2, h3, h4, Bind.bind, Except.bind, Pure.pure, Except.pure]

theorem extractRecordB_skip {r et etS : PyVal} {yr : Int}
    (h1 : pyGetItem r "effective_time" = .ok et)
    (h2 : pySliceDropLast4 et = .ok etS)
    (h3 : pyIntCast etS = .ok yr)
    (h4 : pyGetItem r "openfda" = .ok (.dict .nil)) :
    extractRecordB r = .ok none := by
  simp only [extractRecordB, h1, h2, h3, h4, Bind.bind, Except.bind, Pure.pure, Except.pure]

theorem extract_dataA_mkPage (items : List PyVal) :
    extract_relevant_dataA (mkPage items) =
      Except.map List.reduceOption (mapE extractRecordA items) := by
  simp only [extract_relevant_dataA, mkPage, pyGetItem, PyDict.ofList, PyDict.lookup,
    if_pos, pyIter, toList_ofList, Bind.bind, Except.bind, Pure.pure, Except.pure]
  cases mapE extractRecordA items <;> rfl

theorem extract_dataB_mkPage (items : List PyVal) :
    extract_relevant_dataB (mkPage items) =
      Except.map List.reduceOption (mapE extractRecordB items) := by
  simp only [extract_relevant_dataB, mkPage, pyGetItem, PyDict.ofList, PyDict.lookup,
    if_pos, pyIter, toList_ofList, Bind.bind, Except.bind, Pure.pure, Except.pure]
  cases mapE extractRecordB items <;> rfl

theorem mapE_skip_middle {β : Type} {f : PyVal → Except String (Option β)}
    (pre post : List PyVal) {r : PyVal} (hskip : f r = .ok none) :
    Except.map List.reduceOption (mapE f (pre ++ r :: post)) =
      Except.map List.reduceOption (mapE f (pre ++ post)) := by
  rw [mapE_append f pre (r :: post), mapE_append f pre post, mapE_cons_ok f hskip]
  cases mapE f pre with
  | error e => rfl
  | ok a =>
    cases mapE f post with
    | error e => rfl
    | ok b => simp [Except.map, List.reduceOption_append, List.reduceOption_cons_of_none]

/-- C4: a record whose `openfda` block is the empty dictionary (and whose
`effective_time`, read first, parses) contributes no row, raises no
error, and leaves the rows extracted for the other records of the page
unchanged, in both extractors. -/
theorem empty_openfda_record_skipped
    (pre post : List PyVal) (r : PyVal) (et etS : PyVal) (yr : Int)
    (h1 : pyGetItem r "effective_time" = .ok et)
    (h2 : pySliceDropLast4 et = .ok etS)
    (h3 : pyIntCast etS = .ok yr)
    (h4 : pyGetItem r "openfda" = .ok (.dict .nil)) :
    extract_relevant_dataA (mkPage (pre ++ r :: post)) =
      extract_relevant_dataA (mkPage (pre ++ post)) ∧
    extract_relevant_dataB (mkPage (pre ++ r :: post)) =
      extract_relevant_dataB (mkPage (pre ++ post)) := by
  constructor
  · rw [extract_dataA_mkPage, extract_dataA_mkPage]
    exact mapE_skip_middle pre post (extractRecordA_skip h1 h2 h3 h4)
  · rw [extract_dataB_mkPage, extract_dataB_mkPage]
    exact mapE_skip_middle pre post (extractRecordB_skip h1 h2 h3 h4)



/-- Witness for C4: on a concrete page, inserting the empty-`openfda`
record between two usable records changes nothing. -/
theorem empty_openfda_record_skipped_witness :
    extract_relevant_dataA (mkPage ([recOral] ++ recEmptyOpenfda :: [recOral])) =
      extract_relevant_dataA (mkPage ([recOral] ++ [recOral])) ∧
    extract_relevant_dataB (mkPage ([recOral] ++ recEmptyOpenfda :: [recOral])) =
      extract_relevant_dataB (mkPage ([recOral] ++ [recOral])) :=
  empty_openfda_record_skipped [recOral] [recOral] recEmptyOpenfda
    (.str "20170102") (.str "2017") 2017 (by decide) (by decide) (by decide) (by decide)

theorem extractRecordA_ok_some {i : PyVal} {row : RowA}
    (h : extractRecordA i = .ok (some row)) :
    ∃ et etS ofda spl s,
      pyGetItem i "effective_time" = .ok et ∧
      pySliceDropLast4 et = .ok etS ∧
      pyIntCast etS = .ok row.year ∧
      pyGetItem i "openfda" = .ok ofda ∧
      ofda ≠ PyVal.dict PyDict.nil ∧
      pyGetItem ofda "manufacturer_name" = .ok row.manufacturer ∧
      pyGetItem ofda "generic_name" = .ok row.generic_name ∧
      pyGetItem i "spl_product_data_elements" = .ok spl ∧
      pyIndexZero spl = .ok (PyVal.str s) ∧
      row.num_ingredients = (pySplitSpace s).length := by
  unfold extractRecordA at h
  simp only [Bind.bind, Except.bind, Pure.pure, Except.pure] at h
  split at h
  next => cases h
  next et heq1 =>
    split at h
    next => cases h
    next etS heq2 =>
      split at h
      next => cases h
      next yr heq3 =>
        split at h
        next => cases h
        next ofda heq4 =>
          split at h
          next => cases h
          next hne =>
            split at h
            next => cases h
            next mn heq5 =>
              split at h
              next => cases h
              next gn heq6 =>
                split at h
                next => cases h
                next spl heq7 =>
                  split at h
                  next => cases h
                  next spl0 heq8 =>
                    split at h
                    next s9 =>
                      cases h
                      exact ⟨et, etS, ofda, spl, s9, heq1, heq2, heq3, heq4, hne, heq5,
                        heq6, heq7, heq8, rfl⟩
                    next => cases h

theorem extractRecordB_ok_some {i : PyVal} {row : RowB}
    (h : extractRecordB i = .ok (some row)) :
    ∃ et etS ofda spl s,
      pyGetItem i "effective_time" = .ok et ∧
      pySliceDropLast4 et = .ok etS ∧
      pyIntCast etS = .ok row.year ∧
      pyGetItem i "openfda" = .ok ofda ∧
      ofda ≠ PyVal.dict PyDict.nil ∧
      pyGetItem ofda "manufacturer_name" = .ok row.manufacturer ∧
      row.route = routeOf ofda ∧
      pyGetItem ofda "generic_name" = .ok row.generic_name ∧
      pyGetItem i "spl_product_data_elements" = .ok spl ∧
      pyIndexZero spl = .ok (PyVal.str s) ∧
      row.num_ingredients = (pySplitSpace s).length := by
  unfold extractRecordB at h
  simp only [Bind.bind, Except.bind, Pure.pure, Except.pure] at h
  split at h
  next => cases h
  next et heq1 =>
    split at h
    next => cases h
    next etS heq2 =>
      split at h
      next => cases h
      next yr heq3 =>
        split at h
        next => cases h
        next ofda heq4 =>
          split at h
          next => cases h
          next hne =>
            split at h
            next => cases h
            next mn heq5 =>
              split at h
              next => cases h
              next gn heq6 =>
                split at h
                next => cases h
                next spl heq7 =>
                  split at h
                  next => cases h
                  next spl0 heq8 =>
                    split at h
                    next s9 =>
                      cases h
                      exact ⟨et, etS, ofda, spl, s9, heq1, heq2, heq3, heq4, hne, heq5,
                        rfl, heq6, heq7, heq8, rfl⟩
                    next => cases h

/-- C10: in both extractors `effective_time` is read and parsed before the
empty-`openfda` check, so a record with an empty `openfda` block whose
`effective_time` is missing, or whose truncated value does not parse as an
integer, makes extraction raise an error instead of being skipped. -/
theorem effective_time_parsed_before_empty_check
    (d : PyDict)
    (_hofda : PyDict.lookup d "openfda" = some (.dict .nil))
    (hET : PyDict.lookup d "effective_time" = none ∨
           ∃ s, PyDict.lookup d "effective_time" = some (.str s) ∧
                pyInt? (pySliceStr s) = none) :
    (∃ e, extractRecordA (.dict d) = .error e) ∧
    (∃ e, extractRecordB (.dict d) = .error e) ∧
    (∃ e, extract_relevant_dataA (mkPage [.dict d]) = .error e) ∧
    (∃ e, extract_relevant_dataB (mkPage [.dict d]) = .error e) := by
  have hA : ∃ e, extractRecordA (.dict d) = .error e := by
    rcases hET with hnone | ⟨s, hsome, hparse⟩
    · exact ⟨"KeyError: " ++ "effective_time", by
        simp only [extractRecordA, pyGetItem, hnone, Bind.bind, Except.bind]⟩
    · have hparse' : pyIntChars (s.data.take (s.data.length - 4)) = none := by
        simpa [pyInt?, pySliceStr] using hparse
      exact ⟨"ValueError: invalid literal for int", by
        simp only [extractRecordA, pyGetItem, hsome, pySliceDropLast4, pyIntCast, pyInt?,
          pySliceStr, hparse', Bind.bind, Except.bind, String.data]⟩
  have hB : ∃ e, extractRecordB (.dict d) = .error e := by
    rcases hET with hnone | ⟨s, hsome, hparse⟩
    · exact ⟨"KeyError: " ++ "effective_time", by
        simp only [extractRecordB, pyGetItem, hnone, Bind.bind, Except.bind]⟩
    · have hparse' : pyIntChars (s.data.take (s.data.length - 4)) = none := by
        simpa [pyInt?, pySliceStr] using hparse
      exact ⟨"ValueError: invalid literal for int", by
        simp only [extractRecordB, pyGetItem, hsome, pySliceDropLast4, pyIntCast, pyInt?,
          pySliceStr, hparse', Bind.bind, Except.bind, String.data]⟩
  obtain ⟨eA, hA'⟩ := hA
  obtain ⟨eB, hB'⟩ := hB
  refine ⟨⟨eA, hA'⟩, ⟨eB, hB'⟩, ⟨eA, ?_⟩, ⟨eB, ?_⟩⟩
  · rw [extract_dataA_mkPage, mapE_cons_error _ hA']
    rfl
  · rw [extract_dataB_mkPage, mapE_cons_error _ hB']
    rfl

/-- Witness for C10: a record whose `openfda` block is empty and that has
no `effective_time` key at all. -/
theorem effective_time_parsed_before_empty_check_witness :
    (∃ e, extractRecordA (.dict (PyDict.ofList [("openfda", .dict PyDict.nil)])) = .error e) ∧
    (∃ e, extractRecordB (.dict (PyDict.ofList [("openfda", .dict PyDict.nil)])) = .error e) ∧
    (∃ e, extract_relevant_dataA
      (mkPage [.dict (PyDict.ofList [("openfda", .dict PyDict.nil)])]) = .error e) ∧
    (∃ e, extract_relevant_dataB
      (mkPage [.dict (PyDict.ofList [("openfda", .dict PyDict.nil)])]) = .error e) :=
  effective_time_parsed_before_empty_check
    (PyDict.ofList [("openfda", .dict PyDict.nil)]) (by decide) (Or.inl (by decide))


/-- C3 counterexample: for a concrete record with a non-empty `openfda`
block and no `route` field, the extracted route cell is the `np.nan`
marker, which is not the string "missing". -/
theorem route_missing_not_string_counterexample :
    extractRecordB recNoRoute =
      .ok (some ⟨.list (PyList.ofList [.str "OMEPRAZOLE"]), RouteCell.nan, 2017, 2,
        .list (PyList.ofList [.str "AstraZeneca"])⟩) ∧
    RouteCell.nan ≠ RouteCell.val (.str "missing") := by
  constructor
  · decide
  · decide

/-- C3 (amended): a record whose non-empty `openfda` block has no `route`
key gets the `np.nan` missing-value marker (not the string "missing") as
its extracted route cell. -/
theorem missing_route_extracted_as_nan
    (i : PyVal) (od : PyDict) (row : RowB)
    (hofda : pyGetItem i "openfda" = .ok (.dict od))
    (_hne : od ≠ PyDict.nil)
    (hroute : PyDict.lookup od "route" = none)
    (hrow : extractRecordB i = .ok (some row)) :
    row.route = RouteCell.nan := by
  obtain ⟨et, etS, ofda, spl, s, -, -, -, hofda', -, -, hr, -, -, -, -⟩ :=
    extractRecordB_ok_some hrow
  rw [hofda'] at hofda
  injection hofda with h
  subst h
  rw [hr]
  simp [routeOf, pyGetItem, hroute]

/-- Witness for C3 (amended) at the concrete record `recNoRoute`. -/
theorem missing_route_extracted_as_nan_witness :
    (⟨.list (PyList.ofList [.str "OMEPRAZOLE"]), RouteCell.nan, 2017, 2,
      .list (PyList.ofList [.str "AstraZeneca"])⟩ : RowB).route = RouteCell.nan :=
  missing_route_extracted_as_nan recNoRoute
    (PyDict.ofList [
      ("manufacturer_name", .list (PyList.ofList [.str "AstraZeneca"])),
      ("generic_name", .list (PyList.ofList [.str "OMEPRAZOLE"]))])
    ⟨.list (PyList.ofList [.str "OMEPRAZOLE"]), RouteCell.nan, 2017, 2,
      .list (PyList.ofList [.str "AstraZeneca"])⟩
    (by decide) (by decide) (by decide) (by decide)

theorem splitCharsOn_length (sep : Char) :
    ∀ l : List Char, (splitCharsOn sep l).length = 1 + l.count sep := by
  intro l
  induction l with
  | nil => rfl
  | cons c rest ih =>
    cases hsp : splitCharsOn sep rest with
    | nil =>
      rw [hsp] at ih
      simp only [List.length_nil] at ih
      omega
    | cons t ts =>
      rw [hsp] at ih
      simp only [List.length_cons] at ih
      by_cases hc : c = sep
      · simp only [splitCharsOn, hsp, if_pos hc, List.length_cons, List.count_cons]
        simp [hc]
        omega
      · simp only [splitCharsOn, hsp, if_neg hc, List.length_cons, List.count_cons]
        simp [hc]
        omega


/-- C6 counterexample: on the text `"a  b"` (two consecutive spaces) the
code records 3 as `num_ingredients`, while splitting on whitespace yields
only 2 tokens. -/
theorem num_ingredients_whitespace_counterexample :
    extractRecordA recDoubleSpace =
      .ok (some ⟨.list (PyList.ofList [.str "X"]), 2017, 3,
        .list (PyList.ofList [.str "AstraZeneca"])⟩) ∧
    (whitespaceTokens "a  b").length = 2 ∧
    (3 : Nat) ≠ 2 := by
  refine ⟨by decide, by decide, by decide⟩

/-- C6 (amended): for every usable record, the extracted `num_ingredients`
equals the number of fields obtained by splitting the first element of
`spl_product_data_elements` at every single space character (so empty
fields produced by consecutive, leading or trailing spaces are counted),
which is one plus the number of space characters of the text. -/
theorem num_ingredients_space_split
    (i : PyVal) (s : String) (rest : PyList) (rowA : RowA) (rowB : RowB)
    (hspl : pyGetItem i "spl_product_data_elements" = .ok (.list (.cons (.str s) rest)))
    (hA : extractRecordA i = .ok (some rowA))
    (hB : extractRecordB i = .ok (some rowB)) :
    rowA.num_ingredients = (pySplitSpace s).length ∧
    rowB.num_ingredients = (pySplitSpace s).length ∧
    (pySplitSpace s).length = 1 + s.data.count ' ' := by
  obtain ⟨-, -, -, splA, sA, -, -, -, -, -, -, -, hsplA, hidxA, hnumA⟩ :=
    extractRecordA_ok_some hA
  obtain ⟨-, -, -, splB, sB, -, -, -, -, -, -, -, -, hsplB, hidxB, hnumB⟩ :=
    extractRecordB_ok_some hB
  rw [hspl] at hsplA hsplB
  injection hsplA with hA'
  injection hsplB with hB'
  subst hA'
  subst hB'
  simp only [pyIndexZero] at hidxA hidxB
  injection hidxA with hA''
  injection hidxB with hB''
  injection hA'' with hA'''
  injection hB'' with hB'''
  subst hA'''
  subst hB'''
  refine ⟨hnumA, hnumB, ?_⟩
  simp only [pySplitSpace, List.length_map]
  exact splitCharsOn_length ' ' s.data

/-- Witness for C6 (amended) at a concrete usable record. -/
theorem num_ingredients_space_split_witness :
    (⟨.list (PyList.ofList [.str "GEFITINIB"]), 2016, 2,
      .list (PyList.ofList [.str "AstraZeneca"])⟩ : RowA).num_ingredients =
        (pySplitSpace "GEFITINIB TABLET").length ∧
    (⟨.list (PyList.ofList [.str "GEFITINIB"]), RouteCell.val (.str "ORAL"), 2016, 2,
      .list (PyList.ofList [.str "AstraZeneca"])⟩ : RowB).num_ingredients =
        (pySplitSpace "GEFITINIB TABLET").length ∧
    (pySplitSpace "GEFITINIB TABLET").length = 1 + "GEFITINIB TABLET".data.count ' ' :=
  num_ingredients_space_split recOral "GEFITINIB TABLET" PyList.nil
    ⟨.list (PyList.ofList [.str "GEFITINIB"]), 2016, 2,
      .list (PyList.ofList [.str "AstraZeneca"])⟩
    ⟨.list (PyList.ofList [.str "GEFITINIB"]), RouteCell.val (.str "ORAL"), 2016, 2,
      .list (PyList.ofList [.str "AstraZeneca"])⟩
    (by decide) (by decide) (by decide)


/-- C7: evaluating `IngredientAnalytics.plot` at the supported style
`seaborn.barplot` shows the duplicated block: two figures are created and
two charts drawn, and the second chart — the one that receives the title
and is saved — is always a `lineplot`, not the requested bar style. -/
theorem plotA_two_charts_second_lineplot :
    plotA .barplot true = .ok plotABarEvents ∧
    (plotABarEvents.countP fun e => match e with
      | .figure => true
      | _ => false) = 2 ∧
    (plotABarEvents.filter fun e => match e with
      | .chart _ _ _ _ => true
      | _ => false) =
      [.chart "barplot" "year" "num_ingredients" none,
       .chart "lineplot" "year" "num_ingredients" none] ∧
    "lineplot" ≠ "barplot" := by
  refine ⟨by decide, by decide, by decide, by decide⟩

/-- C8: for a supported chart style, calling `plot` with `savefig=True`
saves a PNG into the graphs output directory at a path determined by the
chart style and the grouping and shows nothing, while `savefig=False`
shows the chart and writes no file, in both analytics classes. -/
theorem plot_savefig_behavior (cls : SeabornStyle)
    (h : cls = SeabornStyle.lineplot ∨ cls = SeabornStyle.barplot) :
    (∃ evs, plotA cls true = .ok evs ∧
        PlotEvent.savefigFile (GRAPHS_DIRECTORY ++ "/number_of_ingredients_per_year_" ++
          styleName cls ++ ".png") ∈ evs ∧
        PlotEvent.showFig ∉ evs) ∧
    (∃ evs, plotA cls false = .ok evs ∧ PlotEvent.showFig ∈ evs ∧
        ∀ f, PlotEvent.savefigFile f ∉ evs) ∧
    (∃ evs, plotB cls true = .ok evs ∧
        PlotEvent.savefigFile (GRAPHS_DIRECTORY ++
          "/number_of_ingredients_per_year_per_route_" ++ styleName cls ++ ".png") ∈ evs ∧
        PlotEvent.showFig ∉ evs) ∧
    (∃ evs, plotB cls false = .ok evs ∧ PlotEvent.showFig ∈ evs ∧
        ∀ f, PlotEvent.savefigFile f ∉ evs) := by
  rcases h with rfl | rfl
  · refine ⟨⟨_, rfl, by decide, by decide⟩, ⟨_, rfl, by decide, ?_⟩,
      ⟨_, rfl, by decide, by decide⟩, ⟨_, rfl, by decide, ?_⟩⟩ <;>
      (intro f hf; simp at hf)
  · refine ⟨⟨_, rfl, by decide, by decide⟩, ⟨_, rfl, by decide, ?_⟩,
      ⟨_, rfl, by decide, by decide⟩, ⟨_, rfl, by decide, ?_⟩⟩ <;>
      (intro f hf; simp at hf)

/-- Witness for C8 at the concrete style `seaborn.lineplot`. -/
theorem plot_savefig_behavior_witness :
    (∃ evs, plotA SeabornStyle.lineplot true = .ok evs ∧
        PlotEvent.savefigFile (GRAPHS_DIRECTORY ++ "/number_of_ingredients_per_year_" ++
          styleName SeabornStyle.lineplot ++ ".png") ∈ evs ∧
        PlotEvent.showFig ∉ evs) ∧
    (∃ evs, plotA SeabornStyle.lineplot false = .ok evs ∧ PlotEvent.showFig ∈ evs ∧
        ∀ f, PlotEvent.savefigFile f ∉ evs) ∧
    (∃ evs, plotB SeabornStyle.lineplot true = .ok evs ∧
        PlotEvent.savefigFile (GRAPHS_DIRECTORY ++
          "/number_of_ingredients_per_year_per_route_" ++
          styleName SeabornStyle.lineplot ++ ".png") ∈ evs ∧
        PlotEvent.showFig ∉ evs) ∧
    (∃ evs, plotB SeabornStyle.lineplot false = .ok evs ∧ PlotEvent.showFig ∈ evs ∧
        ∀ f, PlotEvent.savefigFile f ∉ evs) :=
  plot_savefig_behavior SeabornStyle.lineplot (Or.inl rfl)
